import Mathlib

/-!
Verification of the repository bootstrap resolver of `pkg/cmd/initcmd.go`:
the repo-URL guessing table (`repoGuesses`, `guessRepoURL`), the embedded
(`builtinGitClone`) clone path with its authentication retry loop and
credential-redacting log view (`MarshalZerologObject`), and the external
`git clone` argument assembly of `runInitCmd`.

Strings are modelled as `List Char` internally (`String.data`) and the
anchored regular expressions of the guess table are embedded as explicit
deterministic scanners.  Each of the eight patterns in the table is built
from character classes that all exclude `/` (and the optional `(\.git)?`
suffix is anchored by `\z`), so Go's leftmost-greedy matching is the
maximal-munch scan implemented here; the correspondence is noted at each
matcher.
-/

set_option maxRecDepth 10000

namespace ChezmoiInit

/-- The character class `[-0-9A-Za-z]` used throughout `repoGuesses`. -/
def isAlnumDash (c : Char) : Bool := c == '-' || c.isAlphanum

/-- The character class `[-.0-9A-Za-z]` used throughout `repoGuesses`. -/
def isAlnumDashDot (c : Char) : Bool := c == '.' || isAlnumDash c

/-- The character class `[a-z_]` of the sr.ht username's first character. -/
def isSrhtFirst (c : Char) : Bool := ('a' ≤ c && c ≤ 'z') || c == '_'

/-- The character class `[a-z0-9_-]` of the sr.ht username's remaining characters. -/
def isSrhtRest (c : Char) : Bool := isSrhtFirst c || c.isDigit || c == '-'

/-- The literal suffix matched by the optional group `(\.git)?`. -/
def dotGit : List Char := ".git".data

/-- Matcher for `\A([-0-9A-Za-z]+)\z` (rule 1 of `repoGuesses`).
Returns the capture groups `$1, ...` on a full-string match. -/
def matchRule1 (l : List Char) : Option (List (List Char)) :=
  if !l.isEmpty && l.all isAlnumDash then some [l] else none

/-- Matcher for `\A([-0-9A-Za-z]+)/([-0-9A-Za-z]+)(\.git)?\z` (rule 2).
Since `/` and `.` are outside the class, the greedy groups are maximal runs. -/
def matchRule2 (l : List Char) : Option (List (List Char)) :=
  let g1 := l.takeWhile isAlnumDash
  match l.dropWhile isAlnumDash with
  | '/' :: r =>
    let g2 := r.takeWhile isAlnumDash
    let rest := r.dropWhile isAlnumDash
    if !g1.isEmpty && !g2.isEmpty && (rest.isEmpty || rest == dotGit) then
      some [g1, g2, rest]
    else none
  | _ => none

/-- Matcher for `\A([-.0-9A-Za-z]+)/([-0-9A-Za-z]+)\z` (rule 3). -/
def matchRule3 (l : List Char) : Option (List (List Char)) :=
  let g1 := l.takeWhile isAlnumDashDot
  match l.dropWhile isAlnumDashDot with
  | '/' :: r =>
    let g2 := r.takeWhile isAlnumDash
    let rest := r.dropWhile isAlnumDash
    if !g1.isEmpty && !g2.isEmpty && rest.isEmpty then some [g1, g2] else none
  | _ => none

/-- Matcher for `\A([-0-9A-Za-z]+)/([-0-9A-Za-z]+)/([-.0-9A-Za-z]+)\z` (rule 4). -/
def matchRule4 (l : List Char) : Option (List (List Char)) :=
  let g1 := l.takeWhile isAlnumDash
  match l.dropWhile isAlnumDash with
  | '/' :: r1 =>
    let g2 := r1.takeWhile isAlnumDash
    match r1.dropWhile isAlnumDash with
    | '/' :: r2 =>
      let g3 := r2.takeWhile isAlnumDashDot
      let rest := r2.dropWhile isAlnumDashDot
      if !g1.isEmpty && !g2.isEmpty && !g3.isEmpty && rest.isEmpty then
        some [g1, g2, g3]
      else none
    | _ => none
  | _ => none

/-- Matcher for `\A([-.0-9A-Za-z]+)/([-0-9A-Za-z]+)/([-0-9A-Za-z]+)(\.git)?\z` (rule 5). -/
def matchRule5 (l : List Char) : Option (List (List Char)) :=
  let g1 := l.takeWhile isAlnumDashDot
  match l.dropWhile isAlnumDashDot with
  | '/' :: r1 =>
    let g2 := r1.takeWhile isAlnumDash
    match r1.dropWhile isAlnumDash with
    | '/' :: r2 =>
      let g3 := r2.takeWhile isAlnumDash
      let rest := r2.dropWhile isAlnumDash
      if !g1.isEmpty && !g2.isEmpty && !g3.isEmpty && (rest.isEmpty || rest == dotGit) then
        some [g1, g2, g3, rest]
      else none
    | _ => none
  | _ => none

/-- The literal `http://`. -/
def httpSlashes : List Char := "http://".data

/-- The literal `https://`. -/
def httpsSlashes : List Char := "https://".data

/-- Matcher for
`\A(https?://)([-.0-9A-Za-z]+)/([-0-9A-Za-z]+)/([-0-9A-Za-z]+)(\.git)?\z` (rule 6).
`https?://` matches exactly one of the two literal prefixes (they are
mutually exclusive, since the character after `http` is `s` in one and `:`
in the other). -/
def matchRule6 (l : List Char) : Option (List (List Char)) :=
  let sp : Option (List Char × List Char) :=
    if httpsSlashes.isPrefixOf l then some (httpsSlashes, l.drop 8)
    else if httpSlashes.isPrefixOf l then some (httpSlashes, l.drop 7)
    else none
  match sp with
  | none => none
  | some (scheme, r0) =>
    let g2 := r0.takeWhile isAlnumDashDot
    match r0.dropWhile isAlnumDashDot with
    | '/' :: r1 =>
      let g3 := r1.takeWhile isAlnumDash
      match r1.dropWhile isAlnumDash with
      | '/' :: r2 =>
        let g4 := r2.takeWhile isAlnumDash
        let rest := r2.dropWhile isAlnumDash
        if !g2.isEmpty && !g3.isEmpty && !g4.isEmpty && (rest.isEmpty || rest == dotGit) then
          some [scheme, g2, g3, g4, rest]
        else none
      | _ => none
    | _ => none

/-- The literal `sr.ht/~` opening rules 7 and 8. -/
def srhtTilde : List Char := "sr.ht/~".data

/-- Matcher for `\Asr\.ht/~([a-z_][a-z0-9_-]+)\z` (rule 7).
Note the `+` after the second class: the username has at least two characters. -/
def matchRule7 (l : List Char) : Option (List (List Char)) :=
  if srhtTilde.isPrefixOf l then
    match l.drop 7 with
    | c :: cs =>
      if isSrhtFirst c then
        let g := cs.takeWhile isSrhtRest
        let rest := cs.dropWhile isSrhtRest
        if !g.isEmpty && rest.isEmpty then some [c :: g] else none
      else none
    | [] => none
  else none

/-- Matcher for `\Asr\.ht/~([a-z_][a-z0-9_-]+)/([-0-9A-Za-z]+)\z` (rule 8). -/
def matchRule8 (l : List Char) : Option (List (List Char)) :=
  if srhtTilde.isPrefixOf l then
    match l.drop 7 with
    | c :: cs =>
      if isSrhtFirst c then
        let g := cs.takeWhile isSrhtRest
        match cs.dropWhile isSrhtRest with
        | '/' :: r =>
          let g2 := r.takeWhile isAlnumDash
          let rest := r.dropWhile isAlnumDash
          if !g.isEmpty && !g2.isEmpty && rest.isEmpty then some [c :: g, g2] else none
        | _ => none
      else none
    | [] => none
  else none

/-- One entry of the `repoGuesses` table: the compiled anchored pattern
(as a capture-producing matcher) and the three replacement templates. -/
structure RepoGuess where
  rx : List Char → Option (List (List Char))
  httpRepoGuessRepl : String
  sshRepoGuessRepl : String
  usernameGuessRepl : String

def rule1Guess : RepoGuess :=
  ⟨matchRule1, "https://github.com/$1/dotfiles.git", "git@github.com:$1/dotfiles.git", "$1"⟩

def rule2Guess : RepoGuess :=
  ⟨matchRule2, "https://github.com/$1/$2.git", "git@github.com:$1/$2.git", "$1"⟩

def rule3Guess : RepoGuess :=
  ⟨matchRule3, "https://$1/$2/dotfiles.git", "git@$1:$2/dotfiles.git", "$2"⟩

def rule4Guess : RepoGuess :=
  ⟨matchRule4, "https://$1/$2/$3.git", "git@$1:$2/$3.git", "$2"⟩

def rule5Guess : RepoGuess :=
  ⟨matchRule5, "https://$1/$2/$3.git", "git@$1:$2/$3.git", "$2"⟩

def rule6Guess : RepoGuess :=
  ⟨matchRule6, "$1$2/$3/$4.git", "git@$2:$3/$4.git", "$3"⟩

def rule7Guess : RepoGuess :=
  ⟨matchRule7, "https://git.sr.ht/~$1/dotfiles", "git@git.sr.ht:~$1/dotfiles", "$1"⟩

def rule8Guess : RepoGuess :=
  ⟨matchRule8, "https://git.sr.ht/~$1/$2", "git@git.sr.ht:~$1/$2", "$1"⟩

/-- The `repoGuesses` table of `initcmd.go`, in declared order. -/
def repoGuesses : List RepoGuess :=
  [rule1Guess, rule2Guess, rule3Guess, rule4Guess,
   rule5Guess, rule6Guess, rule7Guess, rule8Guess]

/-- Capture-group lookup for template expansion: `$n` refers to the n-th
capture group (1-based); an out-of-range reference expands to the empty
string, as in Go's `Regexp.Expand`.  `$0` (the whole match) is unused by
every template in the table. -/
def groupRef (gs : List (List Char)) (n : Nat) : List Char :=
  if n = 0 then [] else gs.getD (n - 1) []

/-- Template expansion of `Regexp.ReplaceAllString` on a full-string match,
restricted to the references that actually occur in `repoGuesses`: every
reference there is a single digit `$1`..`$4` and is never followed by a
letter, digit or underscore, so Go's longest-name parse reads exactly one
digit. -/
def expandTemplate (gs : List (List Char)) : List Char → List Char
  | [] => []
  | '$' :: c :: rest =>
    if c.isDigit then groupRef gs (c.toNat - '0'.toNat) ++ expandTemplate gs rest
    else '$' :: c :: expandTemplate gs rest
  | c :: rest => c :: expandTemplate gs rest

/-- The scan of `guessRepoURL` over the guess table: first match wins; on a
match the requested variant is rendered if its template is non-empty,
otherwise the scan continues (the `switch` in the Go loop falls through and
the loop advances); if no rule fires the raw argument is returned with an
empty username. -/
def guessRepoURLList : List RepoGuess → List Char → Bool → List Char × List Char
  | [], arg, _ => ([], arg)
  | g :: gs, arg, ssh =>
    match g.rx arg with
    | none => guessRepoURLList gs arg ssh
    | some caps =>
      if ssh && !(g.sshRepoGuessRepl == "") then
        ([], expandTemplate caps g.sshRepoGuessRepl.data)
      else if !ssh && !(g.httpRepoGuessRepl == "") then
        (expandTemplate caps g.usernameGuessRepl.data,
         expandTemplate caps g.httpRepoGuessRepl.data)
      else guessRepoURLList gs arg ssh

/-- `guessRepoURL` of `initcmd.go`: guesses `(username, repo)` from `arg`. -/
def guessRepoURL (arg : String) (ssh : Bool) : String × String :=
  (String.mk (guessRepoURLList repoGuesses arg.data ssh).1,
   String.mk (guessRepoURLList repoGuesses arg.data ssh).2)

/-! ## The embedded (builtin git) clone path -/

/-- Errors surfaced by `git.PlainClone`.  The stably identifiable value
`transport.ErrAuthenticationRequired` (matched with `errors.Is`) is the
`authenticationRequired` constructor; every other error is carried as an
opaque message. -/
inductive GitError
  | authenticationRequired
  | message (s : String)
  deriving DecidableEq

/-- `go-git`'s `http.BasicAuth` credential pair. -/
structure BasicAuth where
  username : String
  password : String
  deriving DecidableEq

/-- The `fmt.Stringer` of `go-git`'s `http.BasicAuth` (used by
`MarshalZerologObject` through `e.Stringer("Auth", o.Auth)`): it prints
`Name()` (`http-basic-auth`) and the username, and masks the password as
`*******` (or `<empty>` when it is empty). -/
def basicAuthString (a : BasicAuth) : String :=
  "http-basic-auth - " ++ a.username ++ ":" ++ (if a.password == "" then "<empty>" else "*******")

/-- `go-git`'s `git.DefaultSubmoduleRecursionDepth`. -/
def defaultSubmoduleRecursionDepth : Nat := 10

/-- The fields of `git.CloneOptions` that `MarshalZerologObject` inspects.
`builtinGitClone` sets `url`, `depth`, `referenceName` and
`recurseSubmodules` and leaves the rest at their zero values; `auth` is
attached by the retry loop. -/
structure CloneOptions where
  url : String
  auth : Option BasicAuth
  remoteName : String
  referenceName : String
  singleBranch : Bool
  noCheckout : Bool
  depth : Int
  recurseSubmodules : Nat
  tags : Int
  insecureSkipTLS : Bool
  caBundle : Option (List Nat)
  deriving DecidableEq

/-- `MarshalZerologObject` of `loggableGitCloneOptions`: the loggable view
of the clone options as an ordered list of (field, rendered value) pairs,
each emitted only when non-zero, exactly in source order.  The `Auth` field
is rendered through `basicAuthString`, never as the raw credential pair. -/
def marshalZerologObject (o : CloneOptions) : List (String × String) :=
  (if o.url == "" then [] else [(("URL"), o.url)]) ++
  (match o.auth with
   | none => []
   | some a => [(("Auth"), basicAuthString a)]) ++
  (if o.remoteName == "" then [] else [(("RemoteName"), o.remoteName)]) ++
  (if o.referenceName == "" then [] else [(("ReferenceName"), o.referenceName)]) ++
  (if o.singleBranch then [(("SingleBranch"), ("true"))] else []) ++
  (if o.noCheckout then [(("NoCheckout"), ("true"))] else []) ++
  (if o.depth == 0 then [] else [(("Depth"), toString o.depth)]) ++
  (if o.recurseSubmodules == 0 then [] else [(("RecurseSubmodules"), toString o.recurseSubmodules)]) ++
  (if o.tags == 0 then [] else [(("Tags"), toString o.tags)]) ++
  (if o.insecureSkipTLS then [(("InsecureSkipTLS"), ("true"))] else []) ++
  (match o.caBundle with
   | none => []
   | some b => [(("CABundle"), toString b)])

/-- The fields of `initCmdConfig` read by the modelled clone paths. -/
structure InitCmdConfig where
  branch : String
  depth : Int
  guessRepoURL : Bool
  recurseSubmodules : Bool
  ssh : Bool
  deriving DecidableEq

/-- `plumbing.NewBranchReferenceName`. -/
def newBranchReferenceName (b : String) : String := "refs/heads/" ++ b

/-- The `git.CloneOptions` value constructed by `builtinGitClone` before
the retry loop: note that `RecurseSubmodules` is always
`git.DefaultSubmoduleRecursionDepth`, independent of
`c.init.recurseSubmodules`. -/
def initialCloneOptions (cfg : InitCmdConfig) (repoURLStr : String) : CloneOptions :=
  { url := repoURLStr
    auth := none
    remoteName := ""
    referenceName := if cfg.branch == "" then "" else newBranchReferenceName cfg.branch
    singleBranch := false
    noCheckout := false
    depth := cfg.depth
    recurseSubmodules := defaultSubmoduleRecursionDepth
    tags := 0
    insecureSkipTLS := false
    caBundle := none }

/-- Scheme detection of `transport.NewEndpoint` (not under `src/`; modelled
from the library's `^[^:]+://` scheme test): a non-empty colon-free prefix
followed by `://` is the scheme. -/
def schemeOf (l : List Char) : Option (List Char) :=
  let pre := l.takeWhile (fun c => !(c == ':'))
  let rest := l.dropWhile (fun c => !(c == ':'))
  if !pre.isEmpty && rest.take 3 == [':', '/', '/'] then some pre else none

/-- Scp-like URL detection of `transport.NewEndpoint` (not under `src/`;
modelled from the spec's "ssh `user@host:path` form" and the library's
scp-like pattern): an optional `user@`, then a non-empty host free of `:`
and spaces, then `:`, then a path containing `/`. -/
def isScpLike (l : List Char) : Bool :=
  let afterUser :=
    if l.any (fun c => c == '@') then (l.dropWhile (fun c => !(c == '@'))).drop 1 else l
  let host := afterUser.takeWhile (fun c => !(c == ':') && !(c == ' '))
  match afterUser.dropWhile (fun c => !(c == ':') && !(c == ' ')) with
  | ':' :: path => !host.isEmpty && path.any (fun c => c == '/')
  | _ => false

/-- The `Protocol` of `transport.NewEndpoint(url)`: the explicit scheme if
one is present, `ssh` for scp-like URLs, `file` otherwise. -/
def endpointProtocol (s : String) : String :=
  match schemeOf s.data with
  | some sch => String.mk sch
  | none => if isScpLike s.data then "ssh" else "file"

/-- One `zerolog` record of the retry loop: the error (if any), the two
scalar fields, and the loggable view of the clone options at that attempt. -/
structure LogEntry where
  err : Option GitError
  path : String
  isBare : Bool
  options : List (String × String)
  deriving DecidableEq

/-- Outcome of the modelled clone operation.  `scriptExhausted` marks the
point where the unbounded loop would perform attempts (or prompts) beyond
the supplied script. -/
inductive CloneResult
  | ok
  | error (e : GitError)
  | scriptExhausted
  deriving DecidableEq

/-- Observable trace of `builtinGitClone`: final outcome, number of
credential-prompt rounds (one `Username?`/`Password?` pair each), and the
log records in order. -/
structure CloneExec where
  result : CloneResult
  prompts : Nat
  log : List LogEntry
  deriving DecidableEq

/-- The `for` loop of `builtinGitClone`.  `git.PlainClone` is scripted by
`outs` (one `Option GitError` per attempt, `none` = success); `c.readString`
and `c.readPassword` are scripted by `us` and `ps`.  Each attempt logs the
current options through `marshalZerologObject`; a failure is retried exactly
when `errors.Is(err, transport.ErrAuthenticationRequired)`, after reading a
username (falling back to the guessed `username` when the reply is empty)
and a password and attaching them as `http.BasicAuth`; any other outcome
returns immediately.  (The `fmt.Fprintf` of the URL and error to stdout
before the prompts carries no credential and is not modelled.) -/
def cloneLoop (path username : String) :
    CloneOptions → List (Option GitError) → List String → List String → CloneExec
  | _, [], _, _ => ⟨.scriptExhausted, 0, []⟩
  | opts, o :: outs, us, ps =>
    let entry : LogEntry := ⟨o, path, false, marshalZerologObject opts⟩
    if o = some GitError.authenticationRequired then
      match us, ps with
      | u :: us', p :: ps' =>
        let au := if u == "" then username else u
        let r := cloneLoop path username { opts with auth := some ⟨au, p⟩ } outs us' ps'
        ⟨r.result, r.prompts + 1, entry :: r.log⟩
      | _, _ => ⟨.scriptExhausted, 0, [entry]⟩
    else
      ⟨match o with
       | none => .ok
       | some e => .error e, 0, [entry]⟩

/-- The error text of the upfront ssh rejection in `builtinGitClone`. -/
def sshUnsupportedMessage : String :=
  "builtin git does not support cloning repos over ssh, please install git"

/-- `builtinGitClone` of `initcmd.go`: reject upfront (before any attempt,
prompt or log record) when the `--ssh` flag is set or the endpoint's
protocol is `ssh`, otherwise run the retry loop from the initial options.
(`transport.NewEndpoint` can also fail on malformed input; no claim
exercises that branch and the modelled endpoint classification is total.) -/
def builtinGitClone (cfg : InitCmdConfig) (username repoURLStr path : String)
    (outs : List (Option GitError)) (us ps : List String) : CloneExec :=
  if cfg.ssh || (endpointProtocol repoURLStr == "ssh") then
    ⟨.error (.message sshUnsupportedMessage), 0, []⟩
  else
    cloneLoop path username (initialCloneOptions cfg repoURLStr) outs us ps

/-! ## The external-tool clone path of `runInitCmd` -/

/-- Split an `http://` or `https://` URL into scheme and remainder
(`strings.HasPrefix` checks of `runInitCmd`; the two prefixes are mutually
exclusive). -/
def splitSchemeHttp (l : List Char) : Option (List Char × List Char) :=
  if httpSlashes.isPrefixOf l then some (httpSlashes, l.drop 7)
  else if httpsSlashes.isPrefixOf l then some (httpsSlashes, l.drop 8)
  else none

/-- Whether the URL (after its scheme) has a user component: `net/url`
places the userinfo before an `@` inside the authority, which extends to
the first `/`, `?` or `#`. -/
def urlHasUser (rest : List Char) : Bool :=
  (rest.takeWhile (fun c => !(c == '/') && !(c == '?') && !(c == '#'))).any (fun c => c == '@')

/-- The URL adjustment of `runInitCmd` before invoking the external git
tool (source lines 202-211): when URL guessing is enabled and the URL
starts with `http://` or `https://` and `url.Parse` reports no user
component, the guessed username is installed as the userinfo and the URL
re-rendered by `URL.String()` (scheme, then userinfo and `@`, then the
rest; guessed usernames contain no characters that `net/url` escapes).
Note the source does not require the username to be non-empty: an empty
guessed username still installs an empty userinfo, rendering `scheme://@...`. -/
def adjustRepoURL (guessFlag : Bool) (username url : String) : String :=
  if guessFlag then
    match splitSchemeHttp url.data with
    | none => url
    | some (scheme, rest) =>
      if urlHasUser rest then url
      else String.mk (scheme ++ username.data ++ '@' :: rest)
  else url

/-- The argument list built for the external `git clone` invocation in
`runInitCmd`, including the conditional `--recurse-submodules`, `--branch`
and `--depth` flags and the (possibly username-injected) URL. -/
def externalGitCloneArgs (cfg : InitCmdConfig) (username repoURLStr dest : String) :
    List String :=
  [("clone")]
  ++ (if cfg.recurseSubmodules then [("--recurse-submodules")] else [])
  ++ (if cfg.branch == "" then [] else [("--branch"), cfg.branch])
  ++ (if cfg.depth == 0 then [] else [("--depth"), toString cfg.depth])
  ++ [adjustRepoURL cfg.guessRepoURL username repoURLStr, dest]

/-! ## Theorems -/

/-- If no rule of the table matches, the scan falls through to the identity
fallback. -/
theorem guessRepoURLList_no_match (gs : List RepoGuess) (l : List Char) (ssh : Bool)
    (h : ∀ g ∈ gs, g.rx l = none) : guessRepoURLList gs l ssh = ([], l) := by
  induction gs with
  | nil => rfl
  | cons g gs ih =>
    have hg : g.rx l = none := h g (List.mem_cons_self g gs)
    simp only [guessRepoURLList, hg]
    exact ih (fun g' hg' => h g' (List.mem_cons_of_mem g hg'))

/-- C2: for every raw argument matched by no rule of the guess table,
`guessRepoURL` returns the raw input verbatim as the URL and an empty
username, for both values of `preferSsh`. -/
theorem guess_unmatched_identity (arg : String) (ssh : Bool)
    (h : ∀ g ∈ repoGuesses, g.rx arg.data = none) :
    guessRepoURL arg ssh = (("") , arg) := by
  show (String.mk (guessRepoURLList repoGuesses arg.data ssh).1,
        String.mk (guessRepoURLList repoGuesses arg.data ssh).2) = (("") , arg)
  rw [guessRepoURLList_no_match repoGuesses arg.data ssh h]

/-- Witness for C2 at the unmatched argument `foo bar` (a space is in no
character class of the table). -/
theorem guess_unmatched_identity_witness :
    guessRepoURL ("foo bar") false = (("") , ("foo bar")) :=
  guess_unmatched_identity ("foo bar") false (by decide)

/-- C3: a bare identifier resolves to the github dotfiles convention; the
https variant surfaces the identifier as username, the ssh variant an empty
username. -/
theorem guess_bare_identifier_github :
    guessRepoURL ("alice") false = (("alice"), ("https://github.com/alice/dotfiles.git"))
  ∧ guessRepoURL ("alice") true = (("") , ("git@github.com:alice/dotfiles.git")) := by
  constructor
  · decide
  · decide

/-- C4 counterexample: contrary to the claim, `guessRepoURL` on
`example.com/bob` with `preferSsh = true` does not return the raw argument:
rule 3 does define an ssh template. -/
theorem guess_ssh_dotted_host_cx :
    guessRepoURL ("example.com/bob") true ≠ (("") , ("example.com/bob")) := by
  decide

/-- C4 amended: on a rule-3 input with `preferSsh = true`, resolution uses
rule 3's ssh template (every rule of the table defines one) and returns the
rendered ssh URL with empty username; no fall-through occurs. -/
theorem guess_ssh_dotted_host_renders :
    guessRepoURL ("example.com/bob") true = (("") , ("git@example.com:bob/dotfiles.git")) := by
  decide

/-- C5: a full https URL with host/owner/repo path is re-rendered in
canonical form, keeping the scheme and appending `.git`. -/
theorem guess_full_http_url_normalized :
    guessRepoURL ("https://example.com/o/r") false
      = (("o"), ("https://example.com/o/r.git")) := by
  decide

/-- C6: a repo URL of ssh transport is rejected by the embedded clone path
upfront, with the "please install git" error, before any attempt, log
record or prompt. -/
theorem builtin_clone_rejects_ssh (cfg : InitCmdConfig) (username repoURLStr path : String)
    (outs : List (Option GitError)) (us ps : List String)
    (h : endpointProtocol repoURLStr = "ssh") :
    builtinGitClone cfg username repoURLStr path outs us ps
      = ⟨.error (.message sshUnsupportedMessage), 0, []⟩ := by
  simp [builtinGitClone, h]

/-- Witness for C6 at the scp-like URL `git@github.com:alice/dotfiles.git`. -/
theorem builtin_clone_rejects_ssh_witness :
    builtinGitClone ⟨"", 1, true, false, false⟩ ("alice") ("git@github.com:alice/dotfiles.git")
        ("/wt") [none] [] []
      = ⟨.error (.message sshUnsupportedMessage), 0, []⟩ :=
  builtin_clone_rejects_ssh _ _ _ _ _ _ _ (by decide)

/-- C1: in the embedded clone path, an attempt failing with anything other
than the authentication-required error (or succeeding) ends the loop at
once, returning the error verbatim with no prompt; an authentication
failure prompts exactly one username/password round, attaches the
credentials, and retries; a scripted `auth, auth, success` run issues
exactly two prompts and succeeds. -/
theorem clone_retry_iff_auth_required :
    (∀ path username opts e outs us ps, e ≠ GitError.authenticationRequired →
      cloneLoop path username opts (some e :: outs) us ps
        = ⟨.error e, 0, [⟨some e, path, false, marshalZerologObject opts⟩]⟩)
  ∧ (∀ path username opts outs us ps,
      cloneLoop path username opts (none :: outs) us ps
        = ⟨.ok, 0, [⟨none, path, false, marshalZerologObject opts⟩]⟩)
  ∧ (∀ path username opts outs u us p ps,
      cloneLoop path username opts (some GitError.authenticationRequired :: outs)
          (u :: us) (p :: ps)
        = ⟨(cloneLoop path username
              { opts with auth := some ⟨if u == "" then username else u, p⟩ } outs us ps).result,
           (cloneLoop path username
              { opts with auth := some ⟨if u == "" then username else u, p⟩ } outs us ps).prompts + 1,
           ⟨some GitError.authenticationRequired, path, false, marshalZerologObject opts⟩
             :: (cloneLoop path username
              { opts with auth := some ⟨if u == "" then username else u, p⟩ } outs us ps).log⟩)
  ∧ (∀ cfg username url path u1 u2 p1 p2 us ps,
      (cfg.ssh || (endpointProtocol url == "ssh")) = false →
      (builtinGitClone cfg username url path
          [some GitError.authenticationRequired, some GitError.authenticationRequired, none]
          (u1 :: u2 :: us) (p1 :: p2 :: ps)).prompts = 2
      ∧ (builtinGitClone cfg username url path
          [some GitError.authenticationRequired, some GitError.authenticationRequired, none]
          (u1 :: u2 :: us) (p1 :: p2 :: ps)).result = .ok) := by
  refine ⟨?_, ?_, ?_, ?_⟩
  · intro path username opts e outs us ps h
    simp [cloneLoop, h]
  · intro path username opts outs us ps
    simp [cloneLoop]
  · intro path username opts outs u us p ps
    simp [cloneLoop]
  · intro cfg username url path u1 u2 p1 p2 us ps h
    simp [builtinGitClone, h, cloneLoop]

/-- Witness for C1: a non-authentication failure propagates promptlessly;
the `auth, auth, success` script prompts twice and succeeds. -/
theorem clone_retry_iff_auth_required_witness :
    cloneLoop ("/wt") ("alice")
        (initialCloneOptions ⟨"", 1, true, false, false⟩ ("https://github.com/alice/dotfiles.git"))
        [some (GitError.message ("boom"))] [] []
      = ⟨.error (.message ("boom")), 0,
         [⟨some (.message ("boom")), ("/wt"), false,
           marshalZerologObject (initialCloneOptions ⟨"", 1, true, false, false⟩
             ("https://github.com/alice/dotfiles.git"))⟩]⟩
  ∧ (builtinGitClone ⟨"", 1, true, false, false⟩ ("alice")
        ("https://github.com/alice/dotfiles.git") ("/wt")
        [some GitError.authenticationRequired, some GitError.authenticationRequired, none]
        [("u1"), ("u2")] [("p1"), ("p2")]).prompts = 2
  ∧ (builtinGitClone ⟨"", 1, true, false, false⟩ ("alice")
        ("https://github.com/alice/dotfiles.git") ("/wt")
        [some GitError.authenticationRequired, some GitError.authenticationRequired, none]
        [("u1"), ("u2")] [("p1"), ("p2")]).result = .ok := by
  refine ⟨clone_retry_iff_auth_required.1 _ _ _ _ _ _ _ (by decide), ?_, ?_⟩
  · exact (clone_retry_iff_auth_required.2.2.2 _ _ _ _ _ _ _ _ _ _ (by decide)).1
  · exact (clone_retry_iff_auth_required.2.2.2 _ _ _ _ _ _ _ _ _ _ (by decide)).2

/-- C7 counterexample: with URL guessing enabled, an http(s) URL that no
rule matched (so the guessed username is empty) and that has no user
component is still rewritten — an empty userinfo is injected — contradicting
"in every other case the URL passed to the external tool is unchanged". -/
theorem external_inject_empty_username_cx :
    guessRepoURL ("https://host/a") false = (("") , ("https://host/a"))
  ∧ adjustRepoURL true ("") ("https://host/a") = ("https://@host/a")
  ∧ ("https://@host/a") ≠ ("https://host/a") := by
  refine ⟨by decide, by decide, by decide⟩

/-- C7 amended: on the external-tool path the guessed username is injected
into the URL's authority if and only if URL-guessing is enabled, the URL
starts with `http://` or `https://`, and the URL has no user component —
regardless of whether the guessed username is empty (an empty username
still installs an empty userinfo `@`); in every other case the URL is
passed unchanged. -/
theorem external_inject_condition :
    (∀ username url, adjustRepoURL false username url = url)
  ∧ (∀ username url, splitSchemeHttp url.data = none → adjustRepoURL true username url = url)
  ∧ (∀ username url scheme rest, splitSchemeHttp url.data = some (scheme, rest) →
      urlHasUser rest = true → adjustRepoURL true username url = url)
  ∧ (∀ username url scheme rest, splitSchemeHttp url.data = some (scheme, rest) →
      urlHasUser rest = false →
      adjustRepoURL true username url = String.mk (scheme ++ username.data ++ '@' :: rest)) := by
  refine ⟨fun username url => rfl, ?_, ?_, ?_⟩
  · intro username url h
    simp [adjustRepoURL, h]
  · intro username url scheme rest h hu
    simp [adjustRepoURL, h, hu]
  · intro username url scheme rest h hu
    simp [adjustRepoURL, h, hu]

/-- Witness for C7's amended claim across its four cases. -/
theorem external_inject_condition_witness :
    adjustRepoURL false ("alice") ("x") = ("x")
  ∧ adjustRepoURL true ("alice") ("git@github.com:x/y.git") = ("git@github.com:x/y.git")
  ∧ adjustRepoURL true ("alice") ("https://bob@host/a") = ("https://bob@host/a")
  ∧ adjustRepoURL true ("alice") ("https://host/a")
      = String.mk (httpsSlashes ++ ("alice").data ++ '@' :: ("host/a").data) := by
  refine ⟨external_inject_condition.1 _ _,
          external_inject_condition.2.1 _ _ (by decide),
          external_inject_condition.2.2.1 _ _ httpsSlashes (("bob@host/a").data)
            (by decide) (by decide),
          external_inject_condition.2.2.2 _ _ httpsSlashes (("host/a").data)
            (by decide) (by decide)⟩

/-- C10: the embedded clone always requests submodule recursion at
`git.DefaultSubmoduleRecursionDepth`, independently of the
recurse-submodules option (which `builtinGitClone` never reads), while the
external path passes `--recurse-submodules` exactly when the option is set. -/
theorem recurse_submodules_paths :
    (∀ cfg url b, initialCloneOptions { cfg with recurseSubmodules := b } url
        = initialCloneOptions cfg url)
  ∧ (∀ cfg url, (initialCloneOptions cfg url).recurseSubmodules = defaultSubmoduleRecursionDepth)
  ∧ (∀ cfg username url path outs us ps b,
      builtinGitClone { cfg with recurseSubmodules := b } username url path outs us ps
        = builtinGitClone cfg username url path outs us ps)
  ∧ (∀ cfg username url dest,
      cfg.branch ≠ "--recurse-submodules" →
      toString cfg.depth ≠ "--recurse-submodules" →
      adjustRepoURL cfg.guessRepoURL username url ≠ "--recurse-submodules" →
      dest ≠ "--recurse-submodules" →
      ((("--recurse-submodules") ∈ externalGitCloneArgs cfg username url dest)
        ↔ cfg.recurseSubmodules = true)) := by
  refine ⟨?_, fun cfg url => rfl, ?_, ?_⟩
  · intro cfg url b
    cases cfg
    rfl
  · intro cfg username url path outs us ps b
    cases cfg
    rfl
  · intro cfg username url dest h1 h2 h3 h4
    have h1' : (("--recurse-submodules") : String) ≠ cfg.branch := fun h => h1 h.symm
    have h2' : (("--recurse-submodules") : String) ≠ toString cfg.depth := fun h => h2 h.symm
    have h3' : (("--recurse-submodules") : String) ≠ adjustRepoURL cfg.guessRepoURL username url :=
      fun h => h3 h.symm
    have h4' : (("--recurse-submodules") : String) ≠ dest := fun h => h4 h.symm
    have hc : (("--recurse-submodules") : String) ≠ ("clone") := by decide
    have hb : (("--recurse-submodules") : String) ≠ ("--branch") := by decide
    have hd : (("--recurse-submodules") : String) ≠ ("--depth") := by decide
    cases hrec : cfg.recurseSubmodules <;>
      by_cases hbr : cfg.branch == "" <;>
      by_cases hdp : cfg.depth == 0 <;>
      simp [externalGitCloneArgs, hrec, hbr, hdp, h1', h2', h3', h4', hc, hb, hd]

/-- The loggable view of clone options is a function of the non-credential
fields and of the redacted rendering of the credential: options equal up to
`auth`, whose renderings agree, marshal identically. -/
theorem marshal_congr (o o' : CloneOptions)
    (hf : { o with auth := none } = { o' with auth := none })
    (ha : o.auth.map basicAuthString = o'.auth.map basicAuthString) :
    marshalZerologObject o = marshalZerologObject o' := by
  obtain ⟨url, auth, rn, ref, sb, nc, d, rs, t, tls, cab⟩ := o
  obtain ⟨url', auth', rn', ref', sb', nc', d', rs', t', tls', cab'⟩ := o'
  simp only [CloneOptions.mk.injEq] at hf
  obtain ⟨h1, -, h3, h4, h5, h6, h7, h8, h9, h10, h11⟩ := hf
  subst h1; subst h3; subst h4; subst h5
  subst h6; subst h7; subst h8; subst h9; subst h10; subst h11
  cases auth with
  | none =>
    cases auth' with
    | none => rfl
    | some a' => simp at ha
  | some a =>
    cases auth' with
    | none => simp at ha
    | some a' =>
      have ha' : basicAuthString a = basicAuthString a' := by simpa using ha
      simp [marshalZerologObject, ha']

/-- The retry loop's whole observable behaviour (result, prompt count and
log trace) is unchanged when each scripted password is replaced by any
other password of equal emptiness: passwords reach the log only through
the redacted `basicAuthString` rendering. -/
theorem cloneLoop_password_indep :
    ∀ (outs : List (Option GitError)) (path username : String) (opts opts' : CloneOptions)
      (us ps ps' : List String),
      ({ opts with auth := none } = { opts' with auth := none }) →
      opts.auth.map basicAuthString = opts'.auth.map basicAuthString →
      List.Forall₂ (fun p p' => ((p == "") : Bool) = (p' == "")) ps ps' →
      cloneLoop path username opts outs us ps = cloneLoop path username opts' outs us ps' := by
  intro outs
  induction outs with
  | nil => intro path username opts opts' us ps ps' hf ha hps; rfl
  | cons o outs ih =>
    intro path username opts opts' us ps ps' hf ha hps
    have hm : marshalZerologObject opts = marshalZerologObject opts' := marshal_congr _ _ hf ha
    by_cases ho : o = some GitError.authenticationRequired
    · subst ho
      cases hps with
      | nil => cases us <;> simp [cloneLoop, hm]
      | cons hpp hrest =>
        rename_i p p' pt pt'
        cases us with
        | nil => simp [cloneLoop, hm]
        | cons u us' =>
          have hf' :
              ({ opts with auth := some ⟨if u == "" then username else u, p⟩ } : CloneOptions).auth
                = some ⟨if u == "" then username else u, p⟩ := rfl
          have hrec := ih path username
            { opts with auth := some ⟨if u == "" then username else u, p⟩ }
            { opts' with auth := some ⟨if u == "" then username else u, p'⟩ }
            us' pt pt' ?_ ?_ hrest
          · simp only [cloneLoop, if_pos rfl]
            rw [hm, hrec]
          · obtain ⟨u1, a1, r1, f1, s1, n1, d1, rs1, t1, l1, c1⟩ := opts
            obtain ⟨u2, a2, r2, f2, s2, n2, d2, rs2, t2, l2, c2⟩ := opts'
            simp only [CloneOptions.mk.injEq] at hf ⊢
            simpa using hf
          · simp [basicAuthString, hpp]
    · simp [cloneLoop, ho, hm]

/-- C8: the logged view of the clone options never depends on the literal
password supplied to a prompt, under any attempt outcome: the `Auth` field
marshals to the redacted authentication-method indicator only, and the
whole trace of the embedded clone is invariant under replacing every
scripted password by any other (equally empty) one. -/
theorem log_password_noninterference :
    (∀ (opts : CloneOptions) (u p p' : String), ((p == "") : Bool) = (p' == "") →
      marshalZerologObject { opts with auth := some ⟨u, p⟩ }
        = marshalZerologObject { opts with auth := some ⟨u, p'⟩ })
  ∧ (∀ (cfg : InitCmdConfig) (username url path : String) (outs : List (Option GitError))
      (us ps ps' : List String),
      List.Forall₂ (fun p p' => ((p == "") : Bool) = (p' == "")) ps ps' →
      builtinGitClone cfg username url path outs us ps
        = builtinGitClone cfg username url path outs us ps') := by
  constructor
  · intro opts u p p' h
    apply marshal_congr
    · cases opts; rfl
    · simp [basicAuthString, h]
  · intro cfg username url path outs us ps ps' hps
    cases hc : cfg.ssh || (endpointProtocol url == "ssh") <;> simp [builtinGitClone, hc]
    exact cloneLoop_password_indep _ _ _ _ _ _ _ _ rfl rfl hps

/-- Witness for C8: the trace of an authentication failure followed by a
success is identical for passwords `hunter2` and `s3cret`. -/
theorem log_password_noninterference_witness :
    marshalZerologObject
        { initialCloneOptions ⟨"", 1, true, false, false⟩
            ("https://github.com/alice/dotfiles.git") with
          auth := some ⟨("alice"), ("hunter2")⟩ }
      = marshalZerologObject
        { initialCloneOptions ⟨"", 1, true, false, false⟩
            ("https://github.com/alice/dotfiles.git") with
          auth := some ⟨("alice"), ("s3cret")⟩ }
  ∧ builtinGitClone ⟨"", 1, true, false, false⟩ ("alice")
        ("https://github.com/alice/dotfiles.git") ("/wt")
        [some GitError.authenticationRequired, none] [("bob")] [("hunter2")]
      = builtinGitClone ⟨"", 1, true, false, false⟩ ("alice")
        ("https://github.com/alice/dotfiles.git") ("/wt")
        [some GitError.authenticationRequired, none] [("bob")] [("s3cret")] := by
  constructor
  · exact log_password_noninterference.1 _ _ _ _ (by decide)
  · exact log_password_noninterference.2 _ _ _ _ _ _ _ _
      (List.Forall₂.cons (by decide) List.Forall₂.nil)

/-- Witness for C10's external-path conjunct, both option values. -/
theorem recurse_submodules_paths_witness :
    ((("--recurse-submodules") ∈
        externalGitCloneArgs ⟨"", 0, false, true, false⟩ ("") ("https://h/o/r.git") ("/wt")))
  ∧ ¬((("--recurse-submodules") ∈
        externalGitCloneArgs ⟨"", 0, false, false, false⟩ ("") ("https://h/o/r.git") ("/wt"))) := by
  have h := recurse_submodules_paths.2.2.2 ⟨"", 0, false, true, false⟩ ("") ("https://h/o/r.git")
    ("/wt") (by decide) (by decide) (by decide) (by decide)
  have h' := recurse_submodules_paths.2.2.2 ⟨"", 0, false, false, false⟩ ("") ("https://h/o/r.git")
    ("/wt") (by decide) (by decide) (by decide) (by decide)
  exact ⟨h.mpr rfl, fun hm => by simpa using h'.mp hm⟩

/-! ### Span lemmas for the matcher scans -/

theorem isEmpty_false_of_ne_nil {l : List Char} (h : l ≠ []) : l.isEmpty = false := by
  cases l with
  | nil => exact absurd rfl h
  | cons a t => rfl

theorem takeWhile_of_all {p : Char → Bool} : ∀ {l : List Char}, l.all p = true → l.takeWhile p = l := by
  intro l h
  induction l with
  | nil => rfl
  | cons a t ih =>
    simp only [List.all_cons, Bool.and_eq_true] at h
    simp [List.takeWhile_cons, h.1, ih h.2]

theorem dropWhile_of_all {p : Char → Bool} : ∀ {l : List Char}, l.all p = true → l.dropWhile p = [] := by
  intro l h
  induction l with
  | nil => rfl
  | cons a t ih =>
    simp only [List.all_cons, Bool.and_eq_true] at h
    simp [List.dropWhile_cons, h.1, ih h.2]

theorem takeWhile_append_stop {p : Char → Bool} :
    ∀ (l : List Char) {c : Char} (r : List Char), l.all p = true → p c = false →
      (l ++ c :: r).takeWhile p = l := by
  intro l
  induction l with
  | nil => intro c r _ hc; simp [List.takeWhile_cons, hc]
  | cons a t ih =>
    intro c r hl hc
    simp only [List.all_cons, Bool.and_eq_true] at hl
    simp [List.takeWhile_cons, hl.1, ih r hl.2 hc]

theorem dropWhile_append_stop {p : Char → Bool} :
    ∀ (l : List Char) {c : Char} (r : List Char), l.all p = true → p c = false →
      (l ++ c :: r).dropWhile p = c :: r := by
  intro l
  induction l with
  | nil => intro c r _ hc; simp [List.dropWhile_cons, hc]
  | cons a t ih =>
    intro c r hl hc
    simp only [List.all_cons, Bool.and_eq_true] at hl
    simp [List.dropWhile_cons, hl.1, ih r hl.2 hc]

theorem all_of_dropWhile_nil {p : Char → Bool} :
    ∀ {l : List Char}, l.dropWhile p = [] → l.all p = true := by
  intro l h
  induction l with
  | nil => rfl
  | cons a t ih =>
    by_cases ha : p a = true
    · simp only [List.dropWhile_cons, ha, if_true] at h
      simp [List.all_cons, ha, ih h]
    · simp only [List.dropWhile_cons, ha] at h
      simp at h

theorem head_dropWhile_false {p : Char → Bool} :
    ∀ {l : List Char} {c : Char} {r : List Char}, l.dropWhile p = c :: r → p c = false := by
  intro l
  induction l with
  | nil => intro c r h; simp [List.dropWhile] at h
  | cons a t ih =>
    intro c r h
    by_cases ha : p a = true
    · rw [List.dropWhile_cons, if_pos ha] at h
      exact ih h
    · rw [List.dropWhile_cons, if_neg ha] at h
      injection h with h1 h2
      subst h1
      simpa using ha

theorem takeWhile_all_self (p : Char → Bool) : ∀ (l : List Char), (l.takeWhile p).all p = true := by
  intro l
  induction l with
  | nil => rfl
  | cons a t ih =>
    by_cases ha : p a = true
    · simp [List.takeWhile_cons, ha, ih]
    · simp [List.takeWhile_cons, ha]

/-! ### Character class facts -/

theorem dash_slash : isAlnumDash '/' = false := by decide

theorem dash_dot : isAlnumDash '.' = false := by decide

theorem dashdot_slash : isAlnumDashDot '/' = false := by decide

theorem eq_dot_of_dashdot {c : Char} (h1 : isAlnumDashDot c = true) (h2 : isAlnumDash c = false) :
    c = '.' := by
  simp [isAlnumDashDot, h2] at h1
  exact h1

theorem all_slash_false (a b : List Char) : (a ++ '/' :: b).all isAlnumDash = false := by
  rw [List.all_append, List.all_cons, dash_slash, Bool.false_and, Bool.and_false]

/-! ### Matcher evaluations on composite arguments -/

theorem matchRule1_slash (a b : List Char) : matchRule1 (a ++ '/' :: b) = none := by
  unfold matchRule1
  rw [all_slash_false, Bool.and_false]
  rfl

theorem matchRule2_plain (o n : List Char)
    (hoa : o.all isAlnumDash = true) (ho0 : o ≠ [])
    (hna : n.all isAlnumDash = true) (hn0 : n ≠ []) :
    matchRule2 (o ++ '/' :: n) = some [o, n, []] := by
  have t1 := takeWhile_append_stop o n hoa dash_slash
  have d1 := dropWhile_append_stop o n hoa dash_slash
  simp only [matchRule2, t1, d1]
  simp [takeWhile_of_all hna, dropWhile_of_all hna,
        isEmpty_false_of_ne_nil ho0, isEmpty_false_of_ne_nil hn0]

theorem matchRule2_git (o n : List Char)
    (hoa : o.all isAlnumDash = true) (ho0 : o ≠ [])
    (hna : n.all isAlnumDash = true) (hn0 : n ≠ []) :
    matchRule2 (o ++ '/' :: (n ++ dotGit)) = some [o, n, dotGit] := by
  have t1 := takeWhile_append_stop o (n ++ dotGit) hoa dash_slash
  have d1 := dropWhile_append_stop o (n ++ dotGit) hoa dash_slash
  have hng : n ++ dotGit = n ++ '.' :: ("git").data := rfl
  have t2 : (n ++ dotGit).takeWhile isAlnumDash = n := by
    rw [hng]; exact takeWhile_append_stop n _ hna dash_dot
  have d2 : (n ++ dotGit).dropWhile isAlnumDash = dotGit := by
    rw [hng]; exact dropWhile_append_stop n _ hna dash_dot
  simp only [matchRule2, t1, d1, t2, d2]
  simp [isEmpty_false_of_ne_nil ho0, isEmpty_false_of_ne_nil hn0, dotGit]

theorem matchRule3_long (h o r : List Char)
    (hha : h.all isAlnumDashDot = true) (hoa : o.all isAlnumDash = true) :
    matchRule3 (h ++ '/' :: (o ++ '/' :: r)) = none := by
  have t1 := takeWhile_append_stop h (o ++ '/' :: r) hha dashdot_slash
  have d1 := dropWhile_append_stop h (o ++ '/' :: r) hha dashdot_slash
  have t2 := takeWhile_append_stop o r hoa dash_slash
  have d2 := dropWhile_append_stop o r hoa dash_slash
  simp only [matchRule3, t1, d1, t2, d2]
  simp

theorem dropWhile_dash_dot_head (host : List Char) (hall : host.all isAlnumDashDot = true)
    (hdot : host.any (fun c => c == '.') = true) (r : List Char) :
    ∃ t, (host ++ r).dropWhile isAlnumDash = '.' :: t := by
  cases hd : host.dropWhile isAlnumDash with
  | nil =>
    exfalso
    have hallD := all_of_dropWhile_nil hd
    obtain ⟨c, hcmem, hceq⟩ := List.any_eq_true.mp hdot
    have hcd : isAlnumDash c = true := (List.all_eq_true.mp hallD) c hcmem
    have hc' : c = '.' := by simpa using hceq
    subst hc'
    exact absurd hcd (by decide)
  | cons c t =>
    have hpc : isAlnumDash c = false := head_dropWhile_false hd
    have hsplit : host = host.takeWhile isAlnumDash ++ c :: t := by
      conv_lhs => rw [← List.takeWhile_append_dropWhile (p := isAlnumDash) (l := host)]
      rw [hd]
    have hcmem : c ∈ host := by
      rw [hsplit]
      exact List.mem_append_right _ (List.mem_cons_self c t)
    have hcd : isAlnumDashDot c = true := (List.all_eq_true.mp hall) c hcmem
    have hc : c = '.' := eq_dot_of_dashdot hcd hpc
    subst hc
    refine ⟨t ++ r, ?_⟩
    calc (host ++ r).dropWhile isAlnumDash
        = ((host.takeWhile isAlnumDash ++ '.' :: t) ++ r).dropWhile isAlnumDash := by
          rw [← hsplit]
      _ = (host.takeWhile isAlnumDash ++ '.' :: (t ++ r)).dropWhile isAlnumDash := by
          simp [List.append_assoc]
      _ = '.' :: (t ++ r) :=
          dropWhile_append_stop _ _ (takeWhile_all_self isAlnumDash host) dash_dot

theorem matchRule2_dotted (host r : List Char) (hall : host.all isAlnumDashDot = true)
    (hdot : host.any (fun c => c == '.') = true) :
    matchRule2 (host ++ r) = none := by
  obtain ⟨t, ht⟩ := dropWhile_dash_dot_head host hall hdot r
  simp [matchRule2, ht]

theorem matchRule4_dotted (host r : List Char) (hall : host.all isAlnumDashDot = true)
    (hdot : host.any (fun c => c == '.') = true) :
    matchRule4 (host ++ r) = none := by
  obtain ⟨t, ht⟩ := dropWhile_dash_dot_head host hall hdot r
  simp [matchRule4, ht]

theorem matchRule5_plain (h o n : List Char)
    (hha : h.all isAlnumDashDot = true) (hh0 : h ≠ [])
    (hoa : o.all isAlnumDash = true) (ho0 : o ≠ [])
    (hna : n.all isAlnumDash = true) (hn0 : n ≠ []) :
    matchRule5 (h ++ '/' :: (o ++ '/' :: n)) = some [h, o, n, []] := by
  have t1 := takeWhile_append_stop h (o ++ '/' :: n) hha dashdot_slash
  have d1 := dropWhile_append_stop h (o ++ '/' :: n) hha dashdot_slash
  have t2 := takeWhile_append_stop o n hoa dash_slash
  have d2 := dropWhile_append_stop o n hoa dash_slash
  simp only [matchRule5, t1, d1, t2, d2]
  simp [takeWhile_of_all hna, dropWhile_of_all hna, isEmpty_false_of_ne_nil hh0,
        isEmpty_false_of_ne_nil ho0, isEmpty_false_of_ne_nil hn0]

theorem matchRule5_git (h o n : List Char)
    (hha : h.all isAlnumDashDot = true) (hh0 : h ≠ [])
    (hoa : o.all isAlnumDash = true) (ho0 : o ≠ [])
    (hna : n.all isAlnumDash = true) (hn0 : n ≠ []) :
    matchRule5 (h ++ '/' :: (o ++ '/' :: (n ++ dotGit))) = some [h, o, n, dotGit] := by
  have t1 := takeWhile_append_stop h (o ++ '/' :: (n ++ dotGit)) hha dashdot_slash
  have d1 := dropWhile_append_stop h (o ++ '/' :: (n ++ dotGit)) hha dashdot_slash
  have t2 := takeWhile_append_stop o (n ++ dotGit) hoa dash_slash
  have d2 := dropWhile_append_stop o (n ++ dotGit) hoa dash_slash
  have hng : n ++ dotGit = n ++ '.' :: ("git").data := rfl
  have t3 : (n ++ dotGit).takeWhile isAlnumDash = n := by
    rw [hng]; exact takeWhile_append_stop n _ hna dash_dot
  have d3 : (n ++ dotGit).dropWhile isAlnumDash = dotGit := by
    rw [hng]; exact dropWhile_append_stop n _ hna dash_dot
  simp only [matchRule5, t1, d1, t2, d2, t3, d3]
  simp [isEmpty_false_of_ne_nil hh0, isEmpty_false_of_ne_nil ho0,
        isEmpty_false_of_ne_nil hn0, dotGit]

/-! ### Scan-step lemmas and template independence -/

theorem guessList_cons_none (g : RepoGuess) (gs : List RepoGuess) (arg : List Char) (ssh : Bool)
    (h : g.rx arg = none) :
    guessRepoURLList (g :: gs) arg ssh = guessRepoURLList gs arg ssh := by
  simp [guessRepoURLList, h]

theorem guessList_cons_some (g : RepoGuess) (gs : List RepoGuess) (arg : List Char) (ssh : Bool)
    (caps : List (List Char)) (h : g.rx arg = some caps)
    (hs : (g.sshRepoGuessRepl == "") = false) (hp : (g.httpRepoGuessRepl == "") = false) :
    guessRepoURLList (g :: gs) arg ssh
      = if ssh then ([], expandTemplate caps g.sshRepoGuessRepl.data)
        else (expandTemplate caps g.usernameGuessRepl.data,
              expandTemplate caps g.httpRepoGuessRepl.data) := by
  cases ssh <;> simp [guessRepoURLList, h, hs, hp]

theorem expand_r2_ssh_indep (g1 g2 x y : List Char) :
    expandTemplate [g1, g2, x] ("git@github.com:$1/$2.git").data
      = expandTemplate [g1, g2, y] ("git@github.com:$1/$2.git").data := rfl

theorem expand_r2_http_indep (g1 g2 x y : List Char) :
    expandTemplate [g1, g2, x] ("https://github.com/$1/$2.git").data
      = expandTemplate [g1, g2, y] ("https://github.com/$1/$2.git").data := rfl

theorem expand_r2_user_indep (g1 g2 x y : List Char) :
    expandTemplate [g1, g2, x] ("$1").data = expandTemplate [g1, g2, y] ("$1").data := rfl

theorem expand_r5_ssh_indep (g1 g2 g3 x y : List Char) :
    expandTemplate [g1, g2, g3, x] ("git@$1:$2/$3.git").data
      = expandTemplate [g1, g2, g3, y] ("git@$1:$2/$3.git").data := rfl

theorem expand_r5_http_indep (g1 g2 g3 x y : List Char) :
    expandTemplate [g1, g2, g3, x] ("https://$1/$2/$3.git").data
      = expandTemplate [g1, g2, g3, y] ("https://$1/$2/$3.git").data := rfl

theorem expand_r5_user_indep (g1 g2 g3 x y : List Char) :
    expandTemplate [g1, g2, g3, x] ("$2").data = expandTemplate [g1, g2, g3, y] ("$2").data := rfl

theorem string_data_append (a b : String) : (a ++ b).data = a.data ++ b.data := rfl

/-- C9: the optional `.git` suffix on the input is normalized away — for
`owner/name` inputs over `[-0-9A-Za-z]` (rule 2) and for dotted-host
`host/owner/name` inputs (rule 5), appending `.git` to the argument leaves
the resolution unchanged, for both values of `preferSsh` (the templates
reference only the leading capture groups, never the `(\.git)?` group). -/
theorem guess_git_suffix (ssh : Bool) (owner name host : String)
    (ho : owner.data ≠ [] ∧ owner.data.all isAlnumDash = true)
    (hn : name.data ≠ [] ∧ name.data.all isAlnumDash = true)
    (hh : host.data ≠ [] ∧ host.data.all isAlnumDashDot = true
        ∧ host.data.any (fun c => c == '.') = true) :
    guessRepoURL (owner ++ ("/") ++ name) ssh
      = guessRepoURL (owner ++ ("/") ++ name ++ (".git")) ssh
  ∧ guessRepoURL (host ++ ("/") ++ owner ++ ("/") ++ name) ssh
      = guessRepoURL (host ++ ("/") ++ owner ++ ("/") ++ name ++ (".git")) ssh := by
  obtain ⟨ho0, hoa⟩ := ho
  obtain ⟨hn0, hna⟩ := hn
  obtain ⟨hh0, hha, hhd⟩ := hh
  have hslash : (("/") : String).data = ['/'] := rfl
  have hdotg : ((".git") : String).data = dotGit := rfl
  have e1 : (owner ++ ("/") ++ name).data = owner.data ++ '/' :: name.data := by
    simp [string_data_append, hslash, List.append_assoc]
  have e2 : (owner ++ ("/") ++ name ++ (".git")).data
      = owner.data ++ '/' :: (name.data ++ dotGit) := by
    simp [string_data_append, hslash, hdotg, dotGit, List.append_assoc]
  have e3 : (host ++ ("/") ++ owner ++ ("/") ++ name).data
      = host.data ++ '/' :: (owner.data ++ '/' :: name.data) := by
    simp [string_data_append, hslash, List.append_assoc]
  have e4 : (host ++ ("/") ++ owner ++ ("/") ++ name ++ (".git")).data
      = host.data ++ '/' :: (owner.data ++ '/' :: (name.data ++ dotGit)) := by
    simp [string_data_append, hslash, hdotg, dotGit, List.append_assoc]
  constructor
  · -- rule 2 absorbs the suffix into its unused third capture group
    unfold guessRepoURL
    rw [e1, e2]
    unfold repoGuesses
    rw [guessList_cons_none rule1Guess _ (owner.data ++ '/' :: name.data) ssh
          (matchRule1_slash owner.data name.data),
        guessList_cons_none rule1Guess _ (owner.data ++ '/' :: (name.data ++ dotGit)) ssh
          (matchRule1_slash owner.data (name.data ++ dotGit)),
        guessList_cons_some rule2Guess _ (owner.data ++ '/' :: name.data) ssh _
          (matchRule2_plain owner.data name.data hoa ho0 hna hn0) (by decide) (by decide),
        guessList_cons_some rule2Guess _ (owner.data ++ '/' :: (name.data ++ dotGit)) ssh _
          (matchRule2_git owner.data name.data hoa ho0 hna hn0) (by decide) (by decide)]
    cases ssh with
    | false =>
      show (String.mk (expandTemplate [owner.data, name.data, []] (("$1") : String).data),
            String.mk (expandTemplate [owner.data, name.data, []]
              (("https://github.com/$1/$2.git") : String).data))
        = (String.mk (expandTemplate [owner.data, name.data, dotGit] (("$1") : String).data),
           String.mk (expandTemplate [owner.data, name.data, dotGit]
              (("https://github.com/$1/$2.git") : String).data))
      rw [expand_r2_user_indep owner.data name.data [] dotGit,
          expand_r2_http_indep owner.data name.data [] dotGit]
    | true =>
      show (String.mk ([] : List Char),
            String.mk (expandTemplate [owner.data, name.data, []]
              (("git@github.com:$1/$2.git") : String).data))
        = (String.mk ([] : List Char),
           String.mk (expandTemplate [owner.data, name.data, dotGit]
              (("git@github.com:$1/$2.git") : String).data))
      rw [expand_r2_ssh_indep owner.data name.data [] dotGit]
  · -- rules 1-4 all fail on a dotted host; rule 5 absorbs the suffix
    unfold guessRepoURL
    rw [e3, e4]
    unfold repoGuesses
    rw [guessList_cons_none rule1Guess _
          (host.data ++ '/' :: (owner.data ++ '/' :: name.data)) ssh
          (matchRule1_slash host.data (owner.data ++ '/' :: name.data)),
        guessList_cons_none rule1Guess _
          (host.data ++ '/' :: (owner.data ++ '/' :: (name.data ++ dotGit))) ssh
          (matchRule1_slash host.data (owner.data ++ '/' :: (name.data ++ dotGit))),
        guessList_cons_none rule2Guess _
          (host.data ++ '/' :: (owner.data ++ '/' :: name.data)) ssh
          (matchRule2_dotted host.data ('/' :: (owner.data ++ '/' :: name.data)) hha hhd),
        guessList_cons_none rule2Guess _
          (host.data ++ '/' :: (owner.data ++ '/' :: (name.data ++ dotGit))) ssh
          (matchRule2_dotted host.data ('/' :: (owner.data ++ '/' :: (name.data ++ dotGit)))
            hha hhd),
        guessList_cons_none rule3Guess _
          (host.data ++ '/' :: (owner.data ++ '/' :: name.data)) ssh
          (matchRule3_long host.data owner.data name.data hha hoa),
        guessList_cons_none rule3Guess _
          (host.data ++ '/' :: (owner.data ++ '/' :: (name.data ++ dotGit))) ssh
          (matchRule3_long host.data owner.data (name.data ++ dotGit) hha hoa),
        guessList_cons_none rule4Guess _
          (host.data ++ '/' :: (owner.data ++ '/' :: name.data)) ssh
          (matchRule4_dotted host.data ('/' :: (owner.data ++ '/' :: name.data)) hha hhd),
        guessList_cons_none rule4Guess _
          (host.data ++ '/' :: (owner.data ++ '/' :: (name.data ++ dotGit))) ssh
          (matchRule4_dotted host.data ('/' :: (owner.data ++ '/' :: (name.data ++ dotGit)))
            hha hhd),
        guessList_cons_some rule5Guess _
          (host.data ++ '/' :: (owner.data ++ '/' :: name.data)) ssh _
          (matchRule5_plain host.data owner.data name.data hha hh0 hoa ho0 hna hn0)
          (by decide) (by decide),
        guessList_cons_some rule5Guess _
          (host.data ++ '/' :: (owner.data ++ '/' :: (name.data ++ dotGit))) ssh _
          (matchRule5_git host.data owner.data name.data hha hh0 hoa ho0 hna hn0)
          (by decide) (by decide)]
    cases ssh with
    | false =>
      show (String.mk (expandTemplate [host.data, owner.data, name.data, []]
              (("$2") : String).data),
            String.mk (expandTemplate [host.data, owner.data, name.data, []]
              (("https://$1/$2/$3.git") : String).data))
        = (String.mk (expandTemplate [host.data, owner.data, name.data, dotGit]
              (("$2") : String).data),
           String.mk (expandTemplate [host.data, owner.data, name.data, dotGit]
              (("https://$1/$2/$3.git") : String).data))
      rw [expand_r5_user_indep host.data owner.data name.data [] dotGit,
          expand_r5_http_indep host.data owner.data name.data [] dotGit]
    | true =>
      show (String.mk ([] : List Char),
            String.mk (expandTemplate [host.data, owner.data, name.data, []]
              (("git@$1:$2/$3.git") : String).data))
        = (String.mk ([] : List Char),
           String.mk (expandTemplate [host.data, owner.data, name.data, dotGit]
              (("git@$1:$2/$3.git") : String).data))
      rw [expand_r5_ssh_indep host.data owner.data name.data [] dotGit]

/-- Witness for C9 at `alice/dotfiles` and `example.com/alice/dotfiles`. -/
theorem guess_git_suffix_witness :
    guessRepoURL (("alice") ++ ("/") ++ ("dotfiles")) false
      = guessRepoURL (("alice") ++ ("/") ++ ("dotfiles") ++ (".git")) false
  ∧ guessRepoURL (("example.com") ++ ("/") ++ ("alice") ++ ("/") ++ ("dotfiles")) false
      = guessRepoURL
          (("example.com") ++ ("/") ++ ("alice") ++ ("/") ++ ("dotfiles") ++ (".git")) false :=
  guess_git_suffix false ("alice") ("dotfiles") ("example.com")
    ⟨by decide, by decide⟩ ⟨by decide, by decide⟩ ⟨by decide, by decide, by decide⟩

end ChezmoiInit
